import Mathlib

/-!
Verification model of the OrderManagement repository's core:
the keyset-pagination / search engine of the cursor-table Reconciliation
component (src/unnamed/part_002) and the load-more / spreadsheet-ingestion
Reconciliation component (src/pages/Reconciliation.tsx).

The backing store (Firebase Realtime Database) is an external collaborator;
its range-query and error-signaling behavior is modelled from spec section 6.
Everything else is translated directly from the TypeScript source.

Field values ordered or matched by the store are modelled as strings
(the repository's indexed fields are all strings).  JavaScript date
parsing (new Date(s).getTime()) is modelled by an abstract parameter
`time : String -> Int`; theorems are proved for every such function, and
concrete witnesses instantiate it with a computable stand-in.
-/

/-- Association-list lookup: value at the first occurrence of key `k`.
Models reading a JavaScript object property / Map.get. -/
def lookupA {α : Type} {β : Type} [DecidableEq α] : List (α × β) → α → Option β
  | [], _ => none
  | (k', v') :: rest, k => if k' = k then some v' else lookupA rest k

/-- Association-list upsert: replace the value at the first occurrence of
`k` in place, or append `(k, v)` if `k` is absent.  Models JavaScript
object property assignment and Map.set (insertion order preserved,
existing entry overwritten). -/
def upsertA {α : Type} {β : Type} [DecidableEq α] : List (α × β) → α → β → List (α × β)
  | [], k, v => [(k, v)]
  | (k', v') :: rest, k, v =>
      if k' = k then (k, v) :: rest else (k', v') :: upsertA rest k v

/-- The last `n` elements of a list.  Models Firebase `limitToLast(n)`
applied to the ascending-ordered matching entries. -/
def takeLast {α : Type} (n : Nat) (l : List α) : List α :=
  l.drop (l.length - n)

/-- The indexable fields of an order record: the `orderByChild` targets of
the source (`OrderDate` for browse ordering, and the three `SEARCH_FIELDS`
keys `OrderNumber`, `Material Number`, `SalesDocument`). -/
inductive IxField : Type where
  | OrderDate : IxField
  | OrderNumber : IxField
  | MaterialNumber : IxField
  | SalesDocument : IxField
deriving DecidableEq, Repr

/-- The string key of each indexed field as it appears in the source
(`SEARCH_FIELDS` in part_002; note the space in "Material Number"). -/
def IxField.name : IxField → String
  | .OrderDate => "OrderDate"
  | .OrderNumber => "OrderNumber"
  | .MaterialNumber => "Material Number"
  | .SalesDocument => "SalesDocument"

/-- Lexicographic comparison of character lists by code point, written as
a Bool recursion the kernel can evaluate. -/
def lexLtB : List Char → List Char → Bool
  | [], [] => false
  | [], _ :: _ => true
  | _ :: _, [] => false
  | a :: as, b :: bs =>
      if a.toNat < b.toNat then true
      else if b.toNat < a.toNat then false
      else lexLtB as bs

/-- Lexicographic order on strings (the standard string order, stated in
a form the kernel can evaluate). -/
def strLt (a b : String) : Prop :=
  lexLtB a.data b.data = true

instance (a b : String) : Decidable (strLt a b) := by
  unfold strLt
  infer_instance

/-- Non-strict counterpart of `strLt`. -/
def strLe (a b : String) : Prop :=
  ¬ strLt b a

instance (a b : String) : Decidable (strLe a b) := by
  unfold strLe
  infer_instance

/-- Ascending (value, key) ordering of store entries: Firebase orders the
children of an `orderByChild` query by the indexed value, with the entry
key as tie-break.  `get` extracts the indexed value of an entry's payload. -/
def entryLe {ρ : Type} (get : ρ → String) (a b : String × ρ) : Prop :=
  strLt (get a.2) (get b.2) ∨ (get a.2 = get b.2 ∧ strLe a.1 b.1)

instance {ρ : Type} (get : ρ → String) : DecidableRel (entryLe get) := by
  intro a b
  unfold entryLe
  infer_instance

/-- An entry lies at or below an `endAt(boundValue, boundKey)` bound:
its `(value, key)` pair is lexicographically at most `(bv, bk)`. -/
def underBound {ρ : Type} (get : ρ → String) (p : String × ρ) (bv bk : String) : Prop :=
  strLt (get p.2) bv ∨ (get p.2 = bv ∧ strLe p.1 bk)

instance {ρ : Type} (get : ρ → String) (p : String × ρ) (bv bk : String) :
    Decidable (underBound get p bv bk) := by
  unfold underBound
  infer_instance

/-- Modelled from the spec: the external ordered key-value collaborator
(spec section 6).  A range query over a collection of `(key, payload)`
entries: optionally intersect with an exact-match predicate on the indexed
value, optionally bound above (inclusively) by a `(value, key)` pair, order
ascending by `(value, key)`, and return the most recent `limit` entries.
The repository treats the store as external; this definition follows the
interface the spec requires of it. -/
def queryStore {ρ : Type} (get : ρ → String) (store : List (String × ρ))
    (eqFilter : Option String) (bound : Option (String × String)) (limit : Nat) :
    List (String × ρ) :=
  let matching := store.filter fun p =>
    (match eqFilter with
     | some v => get p.2 == v
     | none => true) &&
    (match bound with
     | some b => decide (underBound get p b.1 b.2)
     | none => true)
  takeLast limit (matching.insertionSort (entryLe get))

namespace Pager

/-!
Model of src/unnamed/part_002: the cursor-table Reconciliation component.
Its record shape is the OrderRecord interface of src/unnamed/part_000
(note the field key "Material Number").
-/

/-- The payload stored under one key of
`order_management/master_recon_file`, as read by part_002 (the `Code`
field of the emitted record is taken from the entry key, so it is not
part of the stored payload here). -/
structure StoredFields : Type where
  OrderNumber : String
  SalesDocument : String
  OrderDate : String
  BatchNumber : String
  Year : String
  MaterialNumber : String
  ClubName : String
  OrderType : String
  Status : String
  CDD : String
  UPSTrackingNumber : String
deriving DecidableEq, Repr

/-- Dynamic read of an indexed field, modelling `record[field]` for the
field keys part_002 uses. -/
def StoredFields.get (r : StoredFields) : IxField → String
  | .OrderDate => r.OrderDate
  | .OrderNumber => r.OrderNumber
  | .MaterialNumber => r.MaterialNumber
  | .SalesDocument => r.SalesDocument

/-- A record as emitted to the page: the stored payload spread together
with `Code: key` (part_002 line `{...data[key], Code: key}`). -/
structure OrderRecord extends StoredFields : Type where
  Code : String
deriving DecidableEq, Repr

/-- `record[field]` on an emitted record. -/
def OrderRecord.get (r : OrderRecord) : IxField → String
  | .OrderDate => r.OrderDate
  | .OrderNumber => r.OrderNumber
  | .MaterialNumber => r.MaterialNumber
  | .SalesDocument => r.SalesDocument

/-- Attach the entry key as the record's `Code`. -/
def StoredFields.withCode (f : StoredFields) (key : String) : OrderRecord :=
  { f with Code := key }

/-- Pagination checkpoint (interface `Cursor` in part_002); `value` is the
active order field's value of the boundary record, `key` its `Code`. -/
structure Cursor : Type where
  value : String
  key : String
deriving DecidableEq, Repr

/-- An active exact-match search (part_002 `activeSearch` state). -/
structure SearchParams : Type where
  field : IxField
  text : String
deriving DecidableEq, Repr

/-- `PAGE_SIZE` of part_002. -/
def PAGE_SIZE : Nat := 50

/-- The order field the query descriptor walks: the search field in Search
mode, `OrderDate` in Browse mode. -/
def activeField : Option SearchParams → IxField
  | some sp => sp.field
  | none => .OrderDate

/-- The sort key of the local descending sort:
`new Date(o.OrderDate || 0).getTime()`, with JavaScript date parsing
abstracted as `time` and the falsy-empty-string fallback made explicit. -/
def jsDateKey (time : String → Int) (s : String) : Int :=
  if s = "" then 0 else time s

/-- The local comparator of part_002 (`dateB - dateA`): `a` comes before
`b` when `b`'s date key is at most `a`'s (descending by date). -/
def descByDate (time : String → Int) (a b : OrderRecord) : Prop :=
  jsDateKey time b.OrderDate ≤ jsDateKey time a.OrderDate

instance (time : String → Int) : DecidableRel (descByDate time) := by
  intro a b
  unfold descByDate
  infer_instance

instance (time : String → Int) : IsTotal OrderRecord (descByDate time) :=
  ⟨fun a b => le_total (jsDateKey time b.OrderDate) (jsDateKey time a.OrderDate)⟩

instance (time : String → Int) : IsTrans OrderRecord (descByDate time) :=
  ⟨fun _ _ _ h1 h2 => le_trans h2 h1⟩

/-- The outcome of one successful `fetchOrders` call: the page that is
rendered (`setOrders`), the `hasNextPage` flag, and the cursor that is
registered in the cursor table (`setCursorStack`), if any. -/
structure FetchResult : Type where
  orders : List OrderRecord
  hasNextPage : Bool
  cursorUpdate : Option (Nat × Cursor)
deriving DecidableEq, Repr

/-- The post-processing of a snapshot in part_002's `fetchOrders`
(lines 76-122): empty snapshot short-circuit, key-to-record mapping, local
descending sort by date, boundary de-duplication against the cursor key,
`hasNextPage` computation, and derivation of the next page's cursor from
the last (oldest) record. -/
def processFetch (time : String → Int) (page : Nat) (cursor : Option Cursor)
    (sp : Option SearchParams) (raw : List (String × StoredFields)) : FetchResult :=
  if raw.isEmpty then
    { orders := [], hasNextPage := false, cursorUpdate := none }
  else
    let loaded := raw.map fun p => p.2.withCode p.1
    let sorted := loaded.insertionSort (descByDate time)
    let deduped :=
      match cursor with
      | some c => sorted.filter fun o => o.Code ≠ c.key
      | none => sorted
    let hasNext : Bool :=
      if deduped.length < PAGE_SIZE ∧ cursor.isSome then false
      else if deduped.length = 0 then false
      else true
    let cu : Option (Nat × Cursor) :=
      if h : deduped ≠ [] then
        let lastItem := deduped.getLast h
        some (page + 1, { value := lastItem.get (activeField sp), key := lastItem.Code })
      else none
    { orders := deduped, hasNextPage := hasNext, cursorUpdate := cu }

/-- The range request part_002's `fetchOrders` builds (lines 51-73):
search mode intersects an `equalTo(text)` predicate on the search field;
a non-null cursor adds an inclusive `endAt(value, key)` bound and raises
the limit to `PAGE_SIZE + 1`. -/
def queryFor (store : List (String × StoredFields)) (cursor : Option Cursor)
    (sp : Option SearchParams) : List (String × StoredFields) :=
  match sp, cursor with
  | some s, some c =>
      queryStore (StoredFields.get · s.field) store (some s.text)
        (some (c.value, c.key)) (PAGE_SIZE + 1)
  | some s, none =>
      queryStore (StoredFields.get · s.field) store (some s.text) none PAGE_SIZE
  | none, some c =>
      queryStore (StoredFields.get · .OrderDate) store none
        (some (c.value, c.key)) (PAGE_SIZE + 1)
  | none, none =>
      queryStore (StoredFields.get · .OrderDate) store none none PAGE_SIZE

/-- One successful `fetchOrders(page, currentCursor, searchParams)` call
of part_002 against a given store state. -/
def fetchOrders (time : String → Int) (store : List (String × StoredFields))
    (page : Nat) (cursor : Option Cursor) (sp : Option SearchParams) : FetchResult :=
  processFetch time page cursor sp (queryFor store cursor sp)

end Pager

namespace Pager

/-- The pagination/search session state of part_002 (its React state
variables that the core logic reads and writes). -/
structure SessionState : Type where
  searchMode : Bool
  searchField : IxField
  searchText : String
  activeSearch : Option SearchParams
  currentPage : Nat
  cursorStack : List (Nat × Cursor)
  hasNextPage : Bool
  orders : List OrderRecord
deriving DecidableEq, Repr

/-- JavaScript `String.trim`: drop whitespace from both ends (written on
the character list so the kernel can evaluate it). -/
def trimS (s : String) : String :=
  String.mk (((s.data.dropWhile Char.isWhitespace).reverse.dropWhile
    Char.isWhitespace).reverse)

/-- `handleSearchSubmit` (part_002 lines 139-147): a no-op when the
trimmed search text is empty; otherwise resets the page to 1, clears the
cursor table, and activates the search descriptor, in one transition. -/
def handleSearchSubmit (s : SessionState) : SessionState :=
  if trimS s.searchText = "" then s
  else
    { s with
      currentPage := 1
      cursorStack := []
      activeSearch := some { field := s.searchField, text := trimS s.searchText }
      searchMode := true }

/-- `clearSearch` (part_002 lines 149-155). -/
def clearSearch (s : SessionState) : SessionState :=
  { s with
    searchText := ""
    searchMode := false
    activeSearch := none
    currentPage := 1
    cursorStack := [] }

/-- `goToPage` (part_002 lines 157-166): page 1 is always reachable;
any other page only when the cursor table holds a cursor for it. -/
def goToPage (s : SessionState) (n : Nat) : SessionState :=
  if n = 1 then { s with currentPage := 1 }
  else
    match lookupA s.cursorStack n with
    | some _ => { s with currentPage := n }
    | none => s

/-- Apply a successful fetch outcome to the session state (`setOrders`,
`setHasNextPage`, and the functional `setCursorStack` update that `Map.set`s
the new cursor under its page number). -/
def applyFetchResult (s : SessionState) (r : FetchResult) : SessionState :=
  { s with
    orders := r.orders
    hasNextPage := r.hasNextPage
    cursorStack :=
      match r.cursorUpdate with
      | some (n, c) => upsertA s.cursorStack n c
      | none => s.cursorStack }

/-- The fetch effect of part_002 (lines 170-173): fetch the current page
with the cursor looked up in the cursor table (none for page 1), under
the active search descriptor, and apply the result. -/
def effectFetch (time : String → Int) (store : List (String × StoredFields))
    (s : SessionState) : SessionState :=
  applyFetchResult s
    (fetchOrders time store s.currentPage
      (if s.currentPage = 1 then none else lookupA s.cursorStack s.currentPage)
      s.activeSearch)

/-- The session's transition relation: the user-driven handlers of
part_002 (search submission, clearing, page navigation, changing the
search field or text inputs) and the fetch effect. -/
inductive Step (time : String → Int) (store : List (String × StoredFields)) :
    SessionState → SessionState → Prop where
  | submit (s : SessionState) : Step time store s (handleSearchSubmit s)
  | clear (s : SessionState) : Step time store s (clearSearch s)
  | goto (s : SessionState) (n : Nat) : Step time store s (goToPage s n)
  | fetch (s : SessionState) : Step time store s (effectFetch time store s)
  | setField (s : SessionState) (f : IxField) : Step time store s { s with searchField := f }
  | setText (s : SessionState) (t : String) : Step time store s { s with searchText := t }

/-- The store's failure signal, modelled from the spec (section 6: error
signaling must distinguish a missing index for the requested field from
other failures).  The missing-index message follows the Realtime Database
format, which names the field inside an `.indexOn` clause. -/
inductive StoreErr : Type where
  | missingIndex (field : IxField) : StoreErr
  | other (msg : String) : StoreErr
deriving DecidableEq, Repr

/-- Modelled from the spec: the message carried by a store failure
(`err.message` in the catch block of part_002). -/
def StoreErr.message : StoreErr → String
  | .missingIndex f =>
      "Index not defined, add \".indexOn\": \"" ++ f.name ++
        "\", for path \"/order_management/master_recon_file\", to the rules"
  | .other m => m

/-- Substring containment, modelling JavaScript `String.includes`. -/
def containsSub (needle hay : String) : Prop :=
  needle.toList <:+: hay.toList

instance (needle hay : String) : Decidable (containsSub needle hay) := by
  unfold containsSub
  infer_instance

/-- The catch block of part_002's `fetchOrders` (lines 125-131): an error
whose message mentions "index" surfaces as the distinct missing-index
message interpolating the component's `searchField` state; any other error
surfaces with its own message, or a generic fallback when it is empty. -/
def fetchErrorMessage (searchFieldState : IxField) (e : StoreErr) : String :=
  if e.message ≠ "" ∧ containsSub "index" e.message then
    "Missing Index: Please add \".indexOn\": [\"OrderDate\", \"" ++
      searchFieldState.name ++ "\"] to Firebase Rules."
  else if e.message = "" then "Unknown error occurred"
  else e.message

/-- A whole `fetchOrders` call including the failure path: the store
either answers the range request or fails; a failure surfaces as the
error string computed by the catch block. -/
def runFetch (time : String → Int) (searchFieldState : IxField) (page : Nat)
    (cursor : Option Cursor) (sp : Option SearchParams)
    (resp : Except StoreErr (List (String × StoredFields))) :
    Except String FetchResult :=
  match resp with
  | .ok raw => .ok (processFetch time page cursor sp raw)
  | .error e => .error (fetchErrorMessage searchFieldState e)

end Pager

namespace Recon

/-!
Model of src/pages/Reconciliation.tsx: the load-more Reconciliation
component and the spreadsheet ingestion pipeline.  Its record shape is
the OrderRecord interface of src/types.ts (field `Material`, no space).
-/

/-- The canonical order record of src/types.ts, as built by `processFile`
and stored by the batched upsert. -/
structure OrderRecord : Type where
  OrderNumber : String
  SalesDocument : String
  OrderDate : String
  BatchNumber : String
  Year : String
  Material : String
  ClubName : String
  OrderType : String
  Status : String
  CDD : String
  UPSTrackingNumber : String
  Code : String
deriving DecidableEq, Repr

/-- `PAGE_SIZE` of Reconciliation.tsx. -/
def PAGE_SIZE : Nat := 100

/-- A record read back from the store: the stored value spread together
with `Code: key` (`{...data[key], Code: key}`). -/
def withCode (v : OrderRecord) (key : String) : OrderRecord :=
  { v with Code := key }

/-- The local descending sort comparator of Reconciliation.tsx
(`new Date(b.OrderDate).getTime() - new Date(a.OrderDate).getTime()`,
no falsy fallback here). -/
def descByDate (time : String → Int) (a b : OrderRecord) : Prop :=
  time b.OrderDate ≤ time a.OrderDate

instance (time : String → Int) : DecidableRel (descByDate time) := by
  intro a b
  unfold descByDate
  infer_instance

instance (time : String → Int) : IsTotal OrderRecord (descByDate time) :=
  ⟨fun a b => le_total (time b.OrderDate) (time a.OrderDate)⟩

instance (time : String → Int) : IsTrans OrderRecord (descByDate time) :=
  ⟨fun _ _ _ h1 h2 => le_trans h2 h1⟩

/-- Outcome of one `loadMore` call (Reconciliation.tsx lines 64-104):
the de-duplicated, sorted batch of older records appended to the table,
whether the end of data was detected, and the new oldest (date, key)
cursor pair, if one was derived. -/
structure LoadMoreResult : Type where
  appended : List OrderRecord
  noMoreData : Bool
  newOldest : Option (String × String)
deriving DecidableEq, Repr

/-- `loadMore`: request `PAGE_SIZE + 1` entries ending at the inclusive
`(oldestLoadedDate, oldestLoadedKey)` bound, drop the boundary record
whose `Code` equals `oldestLoadedKey`, and either signal end-of-data or
sort descending and append. -/
def loadMore (time : String → Int) (store : List (String × OrderRecord))
    (oldestDate oldestKey : String) : LoadMoreResult :=
  let raw := queryStore (·.OrderDate) store none (some (oldestDate, oldestKey))
    (PAGE_SIZE + 1)
  if raw.isEmpty then { appended := [], noMoreData := true, newOldest := none }
  else
    let newOrders := raw.map fun p => withCode p.2 p.1
    let filtered := newOrders.filter fun o => o.Code ≠ oldestKey
    if filtered.isEmpty then
      { appended := [], noMoreData := true, newOldest := none }
    else
      let sorted := filtered.insertionSort (descByDate time)
      { appended := sorted
        noMoreData := false
        newOldest :=
          match sorted.getLast? with
          | some oldest => some (oldest.OrderDate, oldest.Code)
          | none => none }

/-- One parsed spreadsheet row (`XLSX.utils.sheet_to_json` output): each
column is either absent or holds a cell string. -/
structure Row : Type where
  OrderNumber : Option String
  SalesDocument : Option String
  OrderDate : Option String
  BatchNumber : Option String
  Year : Option String
  Material : Option String
  ClubName : Option String
  OrderType : Option String
  Status : Option String
  CDD : Option String
  UPSTrackingNumber : Option String
  Code : Option String
deriving DecidableEq, Repr

/-- JavaScript truthiness of a possibly-absent cell string: present and
non-empty. -/
def truthy : Option String → Bool
  | none => false
  | some s => s ≠ ""

/-- JavaScript `v || d` on a possibly-absent cell string. -/
def jsOr (v : Option String) (d : String) : String :=
  match v with
  | none => d
  | some s => if s = "" then d else s

/-- The row normalization of `processFile` (Reconciliation.tsx lines
171-184): every field defaults to the empty string when absent (or empty),
except `OrderType`, which defaults to the sentinel "RECONCILIATION";
`Code` is carried over as is. -/
def normalize (r : Row) : OrderRecord :=
  { OrderNumber := jsOr r.OrderNumber ""
    SalesDocument := jsOr r.SalesDocument ""
    OrderDate := jsOr r.OrderDate ""
    BatchNumber := jsOr r.BatchNumber ""
    Year := jsOr r.Year ""
    Material := jsOr r.Material ""
    ClubName := jsOr r.ClubName ""
    OrderType := jsOr r.OrderType "RECONCILIATION"
    Status := jsOr r.Status ""
    CDD := jsOr r.CDD ""
    UPSTrackingNumber := jsOr r.UPSTrackingNumber ""
    Code := r.Code.getD "" }

/-- The fixed path under which an accepted row is addressed
(template literal in `processFile`). -/
def basePath : String := "/order_management/master_recon_file/"

/-- The multi-path key of a row's upsert entry. -/
def rowPath (r : Row) : String := basePath ++ r.Code.getD ""

/-- The row loop of `processFile` (lines 170-189), threading the
`updates` object and the accepted-row counter: a row is processed only
when its `Code` cell is truthy; processing assigns the normalized record
under the row's path (overwriting any earlier assignment to the same
path) and increments the counter. -/
def buildAux (acc : List (String × OrderRecord)) (n : Nat) :
    List Row → List (String × OrderRecord) × Nat
  | [] => (acc, n)
  | r :: rest =>
      if truthy r.Code then buildAux (upsertA acc (rowPath r) (normalize r)) (n + 1) rest
      else buildAux acc n rest

/-- The batched upsert request and accepted count produced from a parsed
spreadsheet. -/
def buildUpdates (rows : List Row) : List (String × OrderRecord) × Nat :=
  buildAux [] 0 rows

/-- Applying the multi-path update to the collection state: each
`(path, record)` entry of the request upserts the record at its path
(`update(ref(db), updates)`). -/
def applyUpdates (s : List (String × OrderRecord))
    (u : List (String × OrderRecord)) : List (String × OrderRecord) :=
  u.foldl (fun acc kv => upsertA acc kv.1 kv.2) s

/-- One ingestion run of `processFile` over an initial collection state:
the batched request is written only when at least one row was accepted;
the reported accepted count is returned alongside the new state. -/
def ingest (s : List (String × OrderRecord)) (rows : List Row) :
    List (String × OrderRecord) × Nat :=
  let bu := buildUpdates rows
  (if bu.2 > 0 then applyUpdates s bu.1 else s, bu.2)

end Recon

/-- A computable stand-in for JavaScript date parsing used by concrete
witnesses: reads a digit string (non-digits contribute 0), so that
ISO-style dates compare like their calendar order. -/
def dateCode (s : String) : Int :=
  s.toList.foldl (fun a c => a * 10 + ((c.toNat - 48 : Nat) : Int)) 0

/-- Example stored payload: order "SO-1" dated 2024-05-01. -/
def exFieldsMay : Pager.StoredFields :=
  { OrderNumber := "SO-1", SalesDocument := "SD-9", OrderDate := "2024-05-01"
    BatchNumber := "", Year := "2024", MaterialNumber := "MAT-7", ClubName := ""
    OrderType := "", Status := "Shipped", CDD := "", UPSTrackingNumber := "" }

/-- Example stored payload: order "SO-1" dated 2024-04-01. -/
def exFieldsApr : Pager.StoredFields :=
  { exFieldsMay with OrderDate := "2024-04-01", Status := "PA" }

/-- A two-record store: key "A" holds the May record, key "B" the April
record. -/
def exStoreB : List (String × Pager.StoredFields) :=
  [("A", exFieldsMay), ("B", exFieldsApr)]

/-- A one-record store. -/
def exStore1 : List (String × Pager.StoredFields) := [("A", exFieldsMay)]

/-- The April record as emitted with its key. -/
def exRecApr : Pager.OrderRecord := exFieldsApr.withCode "B"

/-- Example store for the load-more component (records stored with their
`Code` field, keyed by the same code). -/
def rexRecMay : Recon.OrderRecord :=
  { OrderNumber := "SO-1", SalesDocument := "SD-9", OrderDate := "2024-05-01"
    BatchNumber := "", Year := "2024", Material := "MAT-7", ClubName := ""
    OrderType := "RECONCILIATION", Status := "Shipped", CDD := ""
    UPSTrackingNumber := "", Code := "A" }

def rexRecApr : Recon.OrderRecord :=
  { rexRecMay with OrderDate := "2024-04-01", Code := "B" }

def rexStore : List (String × Recon.OrderRecord) :=
  [("A", rexRecMay), ("B", rexRecApr)]

/-- A parsed spreadsheet row with all cells present. -/
def exRowFull : Recon.Row :=
  { OrderNumber := some "1001", SalesDocument := some "2001"
    OrderDate := some "2024-05-01", BatchNumber := some "B1", Year := some "2024"
    Material := some "M1", ClubName := some "C1", OrderType := some "ZOR"
    Status := some "Shipped", CDD := some "D1", UPSTrackingNumber := some "1Z"
    Code := some "X" }

/-- A row with no cells at all (absent `Code`: rejected). -/
def exRowEmpty : Recon.Row :=
  { OrderNumber := none, SalesDocument := none, OrderDate := none
    BatchNumber := none, Year := none, Material := none, ClubName := none
    OrderType := none, Status := none, CDD := none, UPSTrackingNumber := none
    Code := none }

/-- A row with an empty `Code` cell (rejected). -/
def exRowBlankCode : Recon.Row := { exRowEmpty with Code := some "" }

/-- A row with only a `Code` cell (accepted; every other field takes its
default). -/
def exRowCodeOnly (c : String) : Recon.Row := { exRowEmpty with Code := some c }

/-- Ten rows of which two lack a usable `Code` (spec's acceptance
example). -/
def exTenRows : List Recon.Row :=
  [exRowFull, exRowCodeOnly "R1", exRowEmpty, exRowCodeOnly "R2",
   exRowCodeOnly "R3", exRowBlankCode, exRowCodeOnly "R4", exRowCodeOnly "R5",
   exRowCodeOnly "R6", exRowCodeOnly "R7"]

/-- Two accepted rows sharing the `Code` "X" (duplicate-key example). -/
def exDupRows : List Recon.Row :=
  [exRowFull, { exRowFull with Status := some "Canceled" }]

theorem takeLast_of_le {α : Type} {n : Nat} {l : List α} (h : l.length ≤ n) :
    takeLast n l = l := by
  unfold takeLast
  rw [Nat.sub_eq_zero_of_le h, List.drop_zero]

theorem lookupA_upsertA_self {α β : Type} [DecidableEq α]
    (l : List (α × β)) (k : α) (v : β) : lookupA (upsertA l k v) k = some v := by
  induction l with
  | nil => simp [upsertA, lookupA]
  | cons p rest ih =>
      obtain ⟨k1, v1⟩ := p
      by_cases h : k1 = k
      · simp [upsertA, h, lookupA]
      · simp [upsertA, h, lookupA, ih]

theorem lookupA_upsertA_ne {α β : Type} [DecidableEq α]
    (l : List (α × β)) (k k' : α) (v : β) (h : k' ≠ k) :
    lookupA (upsertA l k v) k' = lookupA l k' := by
  have hne : ¬ k = k' := fun h' => h h'.symm
  induction l with
  | nil => simp [upsertA, lookupA, hne]
  | cons p rest ih =>
      obtain ⟨k1, v1⟩ := p
      by_cases hk : k1 = k
      · subst hk
        simp [upsertA, lookupA, hne]
      · simp only [upsertA, if_neg hk]
        by_cases hk' : k1 = k'
        · simp [lookupA, hk']
        · simp [lookupA, hk', ih]

theorem upsertA_eq_self {α β : Type} [DecidableEq α]
    (l : List (α × β)) (k : α) (v : β) (h : lookupA l k = some v) :
    upsertA l k v = l := by
  induction l with
  | nil => simp [lookupA] at h
  | cons p rest ih =>
      obtain ⟨k1, v1⟩ := p
      by_cases hk : k1 = k
      · simp only [lookupA, if_pos hk] at h
        cases h
        simp [upsertA, hk]
      · simp only [lookupA, if_neg hk] at h
        simp [upsertA, hk, ih h]

theorem keysA_upsertA {α β : Type} [DecidableEq α]
    (l : List (α × β)) (k : α) (v : β) :
    (upsertA l k v).map Prod.fst =
      if k ∈ l.map Prod.fst then l.map Prod.fst else l.map Prod.fst ++ [k] := by
  induction l with
  | nil => simp [upsertA]
  | cons p rest ih =>
      obtain ⟨k1, v1⟩ := p
      by_cases hk : k1 = k
      · simp [upsertA, hk]
      · have hne : ¬ k = k1 := fun h => hk h.symm
        by_cases hmem : k ∈ rest.map Prod.fst <;>
          simp [upsertA, hk, ih, hne, hmem]

theorem keysA_upsertA_nodup {α β : Type} [DecidableEq α]
    (l : List (α × β)) (k : α) (v : β) (h : (l.map Prod.fst).Nodup) :
    ((upsertA l k v).map Prod.fst).Nodup := by
  rw [keysA_upsertA]
  by_cases hmem : k ∈ l.map Prod.fst
  · simpa [hmem]
  · simpa [hmem, List.nodup_append] using h

/-- With no predicate and no bound, a range query limited to at least the
collection's size returns the whole collection (ordered ascending). -/
theorem queryStore_none_none {ρ : Type} (get : ρ → String)
    (store : List (String × ρ)) (limit : Nat) (h : store.length ≤ limit) :
    queryStore get store none none limit = store.insertionSort (entryLe get) := by
  unfold queryStore
  have hf : (store.filter fun p =>
      (match (none : Option String) with
       | some v => get p.2 == v
       | none => true) &&
      (match (none : Option (String × String)) with
       | some b => decide (underBound get p b.1 b.2)
       | none => true)) = store :=
    List.filter_eq_self.mpr fun a _ => rfl
  rw [hf]
  exact takeLast_of_le (by rw [List.length_insertionSort]; exact h)

/-- C1: for every successful fetch performed with a non-null cursor, the
returned page contains no record whose key (`Code`) equals the cursor's
key — in part_002's `fetchOrders` (first conjunct) and in
Reconciliation.tsx's `loadMore` (second conjunct), the boundary row is
removed from the result set before it is emitted. -/
theorem c1_boundary_dedup : ∀ (time : String → Int)
    (store : List (String × Pager.StoredFields)) (page : Nat)
    (sp : Option Pager.SearchParams) (c : Pager.Cursor)
    (rstore : List (String × Recon.OrderRecord)) (odate okey : String),
    (∀ o ∈ (Pager.fetchOrders time store page (some c) sp).orders, o.Code ≠ c.key) ∧
    (∀ o ∈ (Recon.loadMore time rstore odate okey).appended, o.Code ≠ okey) := by
  intro time store page sp c rstore odate okey
  constructor
  · intro o ho
    simp only [Pager.fetchOrders, Pager.processFetch] at ho
    split at ho
    · simp at ho
    · exact of_decide_eq_true (List.mem_filter.mp ho).2
  · intro o ho
    simp only [Recon.loadMore] at ho
    split at ho
    · simp at ho
    · split at ho
      · simp at ho
      · have hmem := ((List.perm_insertionSort (Recon.descByDate time) _).mem_iff).mp ho
        exact of_decide_eq_true (List.mem_filter.mp hmem).2

/-- C1 witness: a concrete fetch with cursor key "A" (and a concrete
load-more with oldest key "A") emits exactly the April record, whose key
differs from "A". -/
theorem c1_boundary_dedup_witness :
    ((Pager.fetchOrders dateCode exStoreB 2 (some ⟨"2024-05-01", "A"⟩) none).orders
      = [exRecApr] ∧ exRecApr.Code ≠ "A") ∧
    ((Recon.loadMore dateCode rexStore "2024-05-01" "A").appended
      = [rexRecApr] ∧ rexRecApr.Code ≠ "A") := by
  refine ⟨⟨by decide, ?_⟩, ⟨by decide, ?_⟩⟩
  · exact (c1_boundary_dedup dateCode exStoreB 2 none ⟨"2024-05-01", "A"⟩ rexStore
      "2024-05-01" "A").1 exRecApr (by decide)
  · exact (c1_boundary_dedup dateCode exStoreB 2 none ⟨"2024-05-01", "A"⟩ rexStore
      "2024-05-01" "A").2 rexRecApr (by decide)

/-- C2 counterexample: a Browse-mode page-1 fetch (null cursor) over a
non-empty store with fewer than `PAGE_SIZE` records yields
`hasNextPage = true`, not `false` as claimed. -/
theorem c2_first_page_flag_cex :
    exStore1 ≠ [] ∧ exStore1.length < Pager.PAGE_SIZE ∧
    (Pager.fetchOrders dateCode exStore1 1 none none).hasNextPage = true := by
  decide

/-- C2 amended: for every Browse-mode page-1 fetch over a non-empty store
with fewer than `PAGE_SIZE` records, the single returned page holds all
records of the store, but `hasNextPage` is `true` (the code only reports
the end of data when a cursor was supplied or the page is empty). -/
theorem c2_first_page_flag_amended : ∀ (time : String → Int)
    (store : List (String × Pager.StoredFields)),
    store ≠ [] → store.length < Pager.PAGE_SIZE →
    (Pager.fetchOrders time store 1 none none).hasNextPage = true ∧
    (Pager.fetchOrders time store 1 none none).orders.Perm
      (store.map fun p => p.2.withCode p.1) := by
  intro time store hne hlt
  have hlen0 : store.length ≠ 0 := by
    have := List.length_pos.mpr hne
    omega
  have hq : Pager.queryFor store none none =
      store.insertionSort (entryLe fun r => Pager.StoredFields.get r IxField.OrderDate) :=
    queryStore_none_none _ store Pager.PAGE_SIZE (Nat.le_of_lt hlt)
  have hrawlen : (Pager.queryFor store none none).length = store.length := by
    rw [hq, List.length_insertionSort]
  have hrawperm : (Pager.queryFor store none none).Perm store := by
    rw [hq]
    exact List.perm_insertionSort _ _
  have hrawne : (Pager.queryFor store none none).isEmpty = false := by
    rcases h : Pager.queryFor store none none with _ | _
    · rw [h] at hrawlen
      exact absurd hrawlen.symm hlen0
    · rfl
  have hslen : (List.insertionSort (Pager.descByDate time)
      ((Pager.queryFor store none none).map fun p => p.2.withCode p.1)).length
      = store.length := by
    rw [List.length_insertionSort, List.length_map, hrawlen]
  constructor
  · simp [Pager.fetchOrders, Pager.processFetch, hrawne, hslen, hlen0]
  · have horders : (Pager.fetchOrders time store 1 none none).orders =
        List.insertionSort (Pager.descByDate time)
          ((Pager.queryFor store none none).map fun p => p.2.withCode p.1) := by
      simp [Pager.fetchOrders, Pager.processFetch, hrawne]
    rw [horders]
    exact (List.perm_insertionSort _ _).trans
      (hrawperm.map fun p => p.2.withCode p.1)

/-- C2 witness for the amended statement, at a concrete one-record store. -/
theorem c2_first_page_flag_witness :
    exStore1 ≠ [] ∧ exStore1.length < Pager.PAGE_SIZE ∧
    ((Pager.fetchOrders dateCode exStore1 1 none none).hasNextPage = true ∧
     (Pager.fetchOrders dateCode exStore1 1 none none).orders.Perm
       (exStore1.map fun p => p.2.withCode p.1)) :=
  ⟨by decide, by decide, c2_first_page_flag_amended dateCode exStore1 (by decide) (by decide)⟩

/-- The `hasNextPage` decision of part_002 as a function of the filtered
count and cursor presence. -/
theorem hasNext_bool (n : Nat) (b : Bool) :
    (if n < Pager.PAGE_SIZE ∧ b = true then false else if n = 0 then false else true)
      = (!decide (n = 0) && !(b && decide (n < Pager.PAGE_SIZE))) := by
  by_cases h1 : n < Pager.PAGE_SIZE <;> by_cases h2 : n = 0 <;>
    cases b <;> simp [h1, h2]

/-- C3: for every fetch, `hasNextPage` is false exactly when the
post-de-duplication result count is 0, or a cursor was supplied and the
count is strictly below `PAGE_SIZE`; it is true in every other case. -/
theorem c3_hasNextPage_rule : ∀ (time : String → Int)
    (store : List (String × Pager.StoredFields)) (page : Nat)
    (cursor : Option Pager.Cursor) (sp : Option Pager.SearchParams),
    (Pager.fetchOrders time store page cursor sp).hasNextPage =
      (!decide ((Pager.fetchOrders time store page cursor sp).orders.length = 0) &&
       !(cursor.isSome &&
         decide ((Pager.fetchOrders time store page cursor sp).orders.length < Pager.PAGE_SIZE))) := by
  intro time store page cursor sp
  unfold Pager.fetchOrders Pager.processFetch
  split
  · simp
  · exact hasNext_bool _ _

/-- C4 counterexample: in Search mode the active order field of the query
descriptor is the search field, but the emitted page is not strictly
descending in it — the exact-match predicate makes every record share the
searched value, as in this concrete two-record page. -/
theorem c4_sort_cex :
    (Pager.fetchOrders dateCode exStoreB 1 none
      (some ⟨.OrderNumber, "SO-1"⟩)).orders.length = 2 ∧
    ¬ List.Pairwise
        (fun a b =>
          strLt (Pager.OrderRecord.get b (Pager.activeField (some ⟨.OrderNumber, "SO-1"⟩)))
            (Pager.OrderRecord.get a (Pager.activeField (some ⟨.OrderNumber, "SO-1"⟩))))
        (Pager.fetchOrders dateCode exStoreB 1 none
          (some ⟨.OrderNumber, "SO-1"⟩)).orders := by
  decide

/-- C4 amended: every emitted page is sorted in descending (not
necessarily strict) order of the `OrderDate` field — in both modes the
code sorts by date, never by the search field — and consequently a record
dated "2024-05-01" always precedes one dated "2024-04-01" on the same
page, provided date parsing orders those strings accordingly. -/
theorem c4_sort_amended : ∀ (time : String → Int)
    (store : List (String × Pager.StoredFields)) (page : Nat)
    (cursor : Option Pager.Cursor) (sp : Option Pager.SearchParams),
    List.Pairwise (Pager.descByDate time)
      (Pager.fetchOrders time store page cursor sp).orders ∧
    (time "2024-05-01" > time "2024-04-01" →
      ∀ (i j : Nat) (a b : Pager.OrderRecord),
        (Pager.fetchOrders time store page cursor sp).orders[i]? = some a →
        (Pager.fetchOrders time store page cursor sp).orders[j]? = some b →
        a.OrderDate = "2024-05-01" → b.OrderDate = "2024-04-01" → i < j) := by
  intro time store page cursor sp
  have hpw : List.Pairwise (Pager.descByDate time)
      (Pager.fetchOrders time store page cursor sp).orders := by
    unfold Pager.fetchOrders Pager.processFetch
    split
    · exact List.Pairwise.nil
    · rcases cursor with _ | c
      · exact List.sorted_insertionSort _ _
      · exact List.Pairwise.sublist (List.filter_sublist _) (List.sorted_insertionSort _ _)
  refine ⟨hpw, ?_⟩
  intro htime i j a b hi hj ha hb
  obtain ⟨hilt, hia⟩ := List.getElem?_eq_some.mp hi
  obtain ⟨hjlt, hjb⟩ := List.getElem?_eq_some.mp hj
  rcases Nat.lt_trichotomy i j with h | h | h
  · exact h
  · exfalso
    subst h
    rw [hia] at hjb
    subst hjb
    rw [ha] at hb
    exact absurd hb (by decide)
  · exfalso
    have hr := List.pairwise_iff_getElem.mp hpw j i hjlt hilt h
    rw [hia, hjb] at hr
    unfold Pager.descByDate Pager.jsDateKey at hr
    rw [ha, hb] at hr
    simp only [if_neg (by decide : ¬ ("2024-05-01" : String) = ""),
      if_neg (by decide : ¬ ("2024-04-01" : String) = "")] at hr
    exact absurd hr (not_le.mpr htime)

/-- C4 witness for the amended statement: on a concrete browse page the
May record sits at index 0 and the April record at index 1. -/
theorem c4_sort_witness :
    dateCode "2024-05-01" > dateCode "2024-04-01" ∧ (0 : Nat) < 1 := by
  refine ⟨by decide, ?_⟩
  exact (c4_sort_amended dateCode exStoreB 1 none none).2 (by decide) 0 1
    (exFieldsMay.withCode "A") (exFieldsApr.withCode "B")
    (by decide) (by decide) (by decide) (by decide)

/-- C5: for every successful fetch whose emitted (post de-duplication)
page is non-empty, exactly one cursor is registered: the cursor table
maps `page + 1` to the pair of the last (oldest) emitted record's active
order field value and `Code`, and every other page's entry is unchanged. -/
theorem c5_cursor_registration : ∀ (time : String → Int)
    (store : List (String × Pager.StoredFields)) (page : Nat)
    (cursor : Option Pager.Cursor) (sp : Option Pager.SearchParams)
    (s : Pager.SessionState) (last : Pager.OrderRecord),
    (Pager.fetchOrders time store page cursor sp).orders.getLast? = some last →
    (Pager.fetchOrders time store page cursor sp).cursorUpdate =
      some (page + 1, ⟨last.get (Pager.activeField sp), last.Code⟩) ∧
    lookupA (Pager.applyFetchResult s
        (Pager.fetchOrders time store page cursor sp)).cursorStack (page + 1) =
      some ⟨last.get (Pager.activeField sp), last.Code⟩ ∧
    ∀ m : Nat, m ≠ page + 1 →
      lookupA (Pager.applyFetchResult s
          (Pager.fetchOrders time store page cursor sp)).cursorStack m =
        lookupA s.cursorStack m := by
  intro time store page cursor sp s last hlast
  have hcu : (Pager.fetchOrders time store page cursor sp).cursorUpdate =
      some (page + 1, ⟨last.get (Pager.activeField sp), last.Code⟩) := by
    unfold Pager.fetchOrders Pager.processFetch at hlast ⊢
    split at hlast <;> rename_i hbranch
    · simp at hlast
    · dsimp only at hlast ⊢
      rw [if_neg hbranch]
      dsimp only
      have hne : (match cursor with
          | some c => ((Pager.queryFor store cursor sp).map fun p =>
              p.2.withCode p.1).insertionSort (Pager.descByDate time)
              |>.filter fun o => o.Code ≠ c.key
          | none => ((Pager.queryFor store cursor sp).map fun p =>
              p.2.withCode p.1).insertionSort (Pager.descByDate time)) ≠ [] := by
        intro h
        rw [h] at hlast
        simp at hlast
      rw [dif_pos hne]
      rw [List.getLast?_eq_getLast _ hne] at hlast
      cases hlast
      rfl
  refine ⟨hcu, ?_, ?_⟩
  · simp only [Pager.applyFetchResult, hcu]
    exact lookupA_upsertA_self _ _ _
  · intro m hm
    simp only [Pager.applyFetchResult, hcu]
    exact lookupA_upsertA_ne _ _ _ _ hm

/-- C5 witness: a concrete browse fetch of page 1 over the two-record
store registers the April record (the oldest) as the cursor for page 2
and leaves the existing page-7 entry untouched. -/
theorem c5_cursor_registration_witness :
    (Pager.fetchOrders dateCode exStoreB 1 none none).orders.getLast? =
      some (exFieldsApr.withCode "B") ∧
    (Pager.fetchOrders dateCode exStoreB 1 none none).cursorUpdate =
      some (2, ⟨"2024-04-01", "B"⟩) ∧
    lookupA (Pager.applyFetchResult
        { searchMode := false, searchField := .OrderNumber, searchText := ""
          activeSearch := none, currentPage := 1
          cursorStack := [(7, ⟨"x", "y"⟩)], hasNextPage := true, orders := [] }
        (Pager.fetchOrders dateCode exStoreB 1 none none)).cursorStack 2 =
      some ⟨"2024-04-01", "B"⟩ ∧
    lookupA (Pager.applyFetchResult
        { searchMode := false, searchField := .OrderNumber, searchText := ""
          activeSearch := none, currentPage := 1
          cursorStack := [(7, ⟨"x", "y"⟩)], hasNextPage := true, orders := [] }
        (Pager.fetchOrders dateCode exStoreB 1 none none)).cursorStack 7 =
      some ⟨"x", "y"⟩ := by
  have h := c5_cursor_registration dateCode exStoreB 1 none none
    { searchMode := false, searchField := .OrderNumber, searchText := ""
      activeSearch := none, currentPage := 1
      cursorStack := [(7, ⟨"x", "y"⟩)], hasNextPage := true, orders := [] }
    (exFieldsApr.withCode "B") (by decide)
  refine ⟨by decide, h.1, h.2.1, ?_⟩
  rw [h.2.2 7 (by decide)]
  decide

/-- C6: `handleSearchSubmit` leaves the session entirely unchanged when
the trimmed text is empty; otherwise, in one atomic transition, it
activates the Search descriptor on the chosen field with the trimmed
text, resets the current page to 1, and empties the cursor table.
Moreover, along every session step, whenever the active descriptor
changes, the cursor table is simultaneously reset to empty — no reachable
transition pairs old cursors with a new descriptor. -/
theorem c6_search_submit_reset : ∀ s : Pager.SessionState,
    (Pager.trimS s.searchText = "" → Pager.handleSearchSubmit s = s) ∧
    (Pager.trimS s.searchText ≠ "" →
      Pager.handleSearchSubmit s =
        { s with
          searchMode := true
          activeSearch := some { field := s.searchField, text := Pager.trimS s.searchText }
          currentPage := 1
          cursorStack := [] }) ∧
    (∀ (time : String → Int) (store : List (String × Pager.StoredFields))
        (s' : Pager.SessionState),
      Pager.Step time store s s' → s'.activeSearch ≠ s.activeSearch →
      s'.cursorStack = []) := by
  intro s
  refine ⟨?_, ?_, ?_⟩
  · intro h
    simp [Pager.handleSearchSubmit, h]
  · intro h
    simp [Pager.handleSearchSubmit, h]
  · intro time store s' hstep hch
    cases hstep with
    | submit =>
        unfold Pager.handleSearchSubmit at hch ⊢
        by_cases h : Pager.trimS s.searchText = ""
        · rw [if_pos h] at hch
          exact absurd rfl hch
        · rw [if_neg h]
    | clear => rfl
    | goto n =>
        exfalso
        unfold Pager.goToPage at hch
        by_cases h : n = 1
        · rw [if_pos h] at hch
          exact hch rfl
        · rw [if_neg h] at hch
          rcases hl : lookupA s.cursorStack n with _ | c <;> rw [hl] at hch <;>
            exact hch rfl
    | fetch =>
        exfalso
        unfold Pager.effectFetch Pager.applyFetchResult at hch
        exact hch rfl
    | setField f => exact absurd rfl hch
    | setText t => exact absurd rfl hch

/-- C6 witness: submitting the text "SO-1001 " (trimming to "SO-1001")
with field OrderNumber from a browse session that had reached page 5
resets the page to 1, clears the cursor table, and activates the search;
and a concrete descriptor-changing step (clearing the search) also leaves
an empty cursor table. -/
theorem c6_search_submit_reset_witness :
    Pager.handleSearchSubmit
        { searchMode := false, searchField := .OrderNumber, searchText := "SO-1001 "
          activeSearch := none, currentPage := 5
          cursorStack := [(2, ⟨"v", "k"⟩), (3, ⟨"w", "l"⟩)], hasNextPage := true
          orders := [] } =
      { searchMode := true, searchField := .OrderNumber, searchText := "SO-1001 "
        activeSearch := some { field := .OrderNumber, text := "SO-1001" }
        currentPage := 1, cursorStack := [], hasNextPage := true, orders := [] } ∧
    (Pager.clearSearch
        { searchMode := true, searchField := .OrderNumber, searchText := "SO-1001 "
          activeSearch := some { field := .OrderNumber, text := "SO-1001" }
          currentPage := 1, cursorStack := [(2, ⟨"v", "k"⟩)], hasNextPage := true
          orders := [] }).cursorStack = [] := by
  constructor
  · rw [(c6_search_submit_reset _).2.1 (by decide)]
    decide
  · exact (c6_search_submit_reset _).2.2 dateCode [] _
      (Pager.Step.clear _) (by decide)

theorem buildAux_count : ∀ (rows : List Recon.Row)
    (acc : List (String × Recon.OrderRecord)) (n : Nat),
    (Recon.buildAux acc n rows).2 =
      n + (rows.filter fun r => Recon.truthy r.Code).length := by
  intro rows
  induction rows with
  | nil => intro acc n; simp [Recon.buildAux]
  | cons r rest ih =>
      intro acc n
      by_cases h : Recon.truthy r.Code = true
      · have hf : List.filter (fun r => Recon.truthy r.Code) (r :: rest) =
            r :: List.filter (fun r => Recon.truthy r.Code) rest := by
          simp [h]
        rw [hf]
        simp only [Recon.buildAux, if_pos h, ih, List.length_cons]
        omega
      · have hf : List.filter (fun r => Recon.truthy r.Code) (r :: rest) =
            List.filter (fun r => Recon.truthy r.Code) rest := by
          simp [h]
        rw [hf]
        simp only [Recon.buildAux, if_neg h, ih]

theorem buildAux_keys_nodup : ∀ (rows : List Recon.Row)
    (acc : List (String × Recon.OrderRecord)) (n : Nat),
    (acc.map Prod.fst).Nodup →
    (((Recon.buildAux acc n rows).1).map Prod.fst).Nodup := by
  intro rows
  induction rows with
  | nil => intro acc n h; simpa [Recon.buildAux] using h
  | cons r rest ih =>
      intro acc n h
      by_cases ht : Recon.truthy r.Code = true
      · simp only [Recon.buildAux, if_pos ht]
        exact ih _ _ (keysA_upsertA_nodup _ _ _ h)
      · simp only [Recon.buildAux, if_neg ht]
        exact ih _ _ h

theorem lookupA_applyUpdates_not_mem :
    ∀ (u s : List (String × Recon.OrderRecord)) (k : String),
    k ∉ u.map Prod.fst →
    lookupA (Recon.applyUpdates s u) k = lookupA s k := by
  intro u
  induction u with
  | nil => intro s k _; rfl
  | cons kv rest ih =>
      intro s k hk
      simp only [List.map_cons, List.mem_cons, not_or] at hk
      have : Recon.applyUpdates s (kv :: rest) =
          Recon.applyUpdates (upsertA s kv.1 kv.2) rest := rfl
      rw [this, ih _ _ hk.2]
      exact lookupA_upsertA_ne _ _ _ _ hk.1

theorem lookupA_applyUpdates_mem :
    ∀ (u s : List (String × Recon.OrderRecord)),
    ((u.map Prod.fst).Nodup) →
    ∀ kv ∈ u, lookupA (Recon.applyUpdates s u) kv.1 = some kv.2 := by
  intro u
  induction u with
  | nil => intro s _ kv hm; simp at hm
  | cons kv0 rest ih =>
      intro s hnd kv hm
      simp only [List.map_cons, List.nodup_cons] at hnd
      have hstep : Recon.applyUpdates s (kv0 :: rest) =
          Recon.applyUpdates (upsertA s kv0.1 kv0.2) rest := rfl
      rcases List.mem_cons.mp hm with h | h
      · subst h
        rw [hstep, lookupA_applyUpdates_not_mem _ _ _ hnd.1]
        exact lookupA_upsertA_self _ _ _
      · rw [hstep]
        exact ih _ hnd.2 kv h

theorem applyUpdates_eq_self :
    ∀ (u s : List (String × Recon.OrderRecord)),
    (∀ kv ∈ u, lookupA s kv.1 = some kv.2) →
    Recon.applyUpdates s u = s := by
  intro u
  induction u with
  | nil => intro s _; rfl
  | cons kv rest ih =>
      intro s h
      have hstep : Recon.applyUpdates s (kv :: rest) =
          Recon.applyUpdates (upsertA s kv.1 kv.2) rest := rfl
      rw [hstep, upsertA_eq_self _ _ _ (h kv (List.mem_cons_self _ _))]
      exact ih _ fun kv' hm => h kv' (List.mem_cons_of_mem _ hm)

/-- C7: a parsed row is accepted exactly when its `Code` cell is truthy
(present and non-empty) — the reported accepted count is the number of
such rows — and normalization of an accepted row defaults every absent
field to the empty string, except `OrderType`, which defaults to the
sentinel "RECONCILIATION". -/
theorem c7_row_validation : ∀ rows : List Recon.Row,
    (Recon.buildUpdates rows).2 = (rows.filter fun r => Recon.truthy r.Code).length ∧
    ∀ r : Recon.Row, Recon.truthy r.Code = true →
      (r.OrderNumber = none → (Recon.normalize r).OrderNumber = "") ∧
      (r.SalesDocument = none → (Recon.normalize r).SalesDocument = "") ∧
      (r.OrderDate = none → (Recon.normalize r).OrderDate = "") ∧
      (r.BatchNumber = none → (Recon.normalize r).BatchNumber = "") ∧
      (r.Year = none → (Recon.normalize r).Year = "") ∧
      (r.Material = none → (Recon.normalize r).Material = "") ∧
      (r.ClubName = none → (Recon.normalize r).ClubName = "") ∧
      (r.Status = none → (Recon.normalize r).Status = "") ∧
      (r.CDD = none → (Recon.normalize r).CDD = "") ∧
      (r.UPSTrackingNumber = none → (Recon.normalize r).UPSTrackingNumber = "") ∧
      (r.OrderType = none → (Recon.normalize r).OrderType = "RECONCILIATION") := by
  intro rows
  refine ⟨by simpa using buildAux_count rows [] 0, ?_⟩
  intro r _
  refine ⟨?_, ?_, ?_, ?_, ?_, ?_, ?_, ?_, ?_, ?_, ?_⟩ <;>
    (intro h; simp [Recon.normalize, Recon.jsOr, h])

/-- C7 witness: ten rows of which two lack a usable `Code` yield an
accepted count of 8, and a row holding only a `Code` cell normalizes with
the `OrderType` sentinel and empty strings elsewhere. -/
theorem c7_row_validation_witness :
    (Recon.buildUpdates exTenRows).2 = 8 ∧
    (Recon.normalize (exRowCodeOnly "R1")).OrderType = "RECONCILIATION" ∧
    (Recon.normalize (exRowCodeOnly "R1")).Material = "" := by
  have h2 := (c7_row_validation exTenRows).2 (exRowCodeOnly "R1") (by decide)
  refine ⟨?_, ?_, ?_⟩
  · rw [(c7_row_validation exTenRows).1]
    decide
  · exact h2.2.2.2.2.2.2.2.2.2.2 (by decide)
  · exact h2.2.2.2.2.2.1 (by decide)

/-- C8: ingestion is idempotent — for every spreadsheet and initial
collection state, running the ingestion upsert a second time leaves the
collection state exactly as after the first run, and reports the same
accepted count. -/
theorem c8_ingest_idempotent : ∀ (s : List (String × Recon.OrderRecord))
    (rows : List Recon.Row),
    (Recon.ingest (Recon.ingest s rows).1 rows).1 = (Recon.ingest s rows).1 ∧
    (Recon.ingest (Recon.ingest s rows).1 rows).2 = (Recon.ingest s rows).2 := by
  intro s rows
  refine ⟨?_, rfl⟩
  unfold Recon.ingest
  by_cases h : (Recon.buildUpdates rows).2 > 0
  · simp only [if_pos h]
    have hnd : (((Recon.buildUpdates rows).1).map Prod.fst).Nodup :=
      buildAux_keys_nodup rows [] 0 (by simp)
    exact applyUpdates_eq_self _ _ fun kv hm =>
      lookupA_applyUpdates_mem _ _ hnd kv hm
  · simp only [if_neg h]

theorem getLast?_cons_getD {α : Type} (a : α) (l : List α) :
    (a :: l).getLast? = some (l.getLast?.getD a) := by
  induction l generalizing a with
  | nil => rfl
  | cons b t ih =>
      rw [List.getLast?_cons_cons, ih b]
      simp

theorem string_append_cancel (a b c : String) : a ++ b = a ++ c ↔ b = c := by
  constructor
  · intro h
    have hd : a.data ++ b.data = a.data ++ c.data := by
      have := congrArg String.data h
      simpa using this
    have hbc := List.append_cancel_left hd
    cases b
    cases c
    exact congrArg String.mk hbc
  · intro h
    rw [h]

theorem lookupA_buildAux : ∀ (rows : List Recon.Row)
    (acc : List (String × Recon.OrderRecord)) (n : Nat) (k : String),
    lookupA (Recon.buildAux acc n rows).1 k =
      (((rows.filter fun r => Recon.truthy r.Code && (Recon.rowPath r == k)).getLast?).map
        fun r => some (Recon.normalize r)).getD (lookupA acc k) := by
  intro rows
  induction rows with
  | nil => intro acc n k; simp [Recon.buildAux]
  | cons r rest ih =>
      intro acc n k
      by_cases ht : Recon.truthy r.Code = true
      · have hstep : Recon.buildAux acc n (r :: rest) =
            Recon.buildAux (upsertA acc (Recon.rowPath r) (Recon.normalize r)) (n + 1) rest := by
          simp [Recon.buildAux, ht]
        by_cases hp : Recon.rowPath r = k
        · have hf : (r :: rest).filter (fun r => Recon.truthy r.Code && (Recon.rowPath r == k)) =
              r :: rest.filter fun r => Recon.truthy r.Code && (Recon.rowPath r == k) := by
            simp [ht, hp]
          rw [hstep, ih, hf, getLast?_cons_getD]
          rcases hl : (rest.filter fun r => Recon.truthy r.Code && (Recon.rowPath r == k)).getLast? with _ | rlast
          · subst hp
            simp [hl, lookupA_upsertA_self]
          · simp [hl]
        · have hf : (r :: rest).filter (fun r => Recon.truthy r.Code && (Recon.rowPath r == k)) =
              rest.filter fun r => Recon.truthy r.Code && (Recon.rowPath r == k) := by
            simp [hp]
          rw [hstep, ih, hf, lookupA_upsertA_ne _ _ _ _ fun h => hp h.symm]
      · have hf : (r :: rest).filter (fun r => Recon.truthy r.Code && (Recon.rowPath r == k)) =
            rest.filter fun r => Recon.truthy r.Code && (Recon.rowPath r == k) := by
          simp [ht]
        have hstep : Recon.buildAux acc n (r :: rest) = Recon.buildAux acc n rest := by
          simp [Recon.buildAux, ht]
        rw [hstep, ih, hf]

/-- C10: every accepted row increments the accepted count, even under
duplicate `Code`s; the batched upsert nevertheless holds at most one
entry per path, and the entry under a `Code`'s path is the normalization
of the last accepted row bearing that `Code` (last wins).  The concrete
conjunct shows the reported count (2) strictly exceeding the number of
records actually written (1) for a spreadsheet with two rows sharing a
`Code`. -/
theorem c10_duplicate_codes :
    (∀ rows : List Recon.Row,
      (Recon.buildUpdates rows).2 = (rows.filter fun r => Recon.truthy r.Code).length ∧
      (((Recon.buildUpdates rows).1).map Prod.fst).Nodup ∧
      ∀ c : String,
        lookupA (Recon.buildUpdates rows).1 (Recon.basePath ++ c) =
          ((rows.filter fun r => Recon.truthy r.Code && (r.Code.getD "" == c)).getLast?).map
            Recon.normalize) ∧
    ((Recon.buildUpdates exDupRows).2 = 2 ∧
     ((Recon.buildUpdates exDupRows).1).length = 1 ∧
     lookupA (Recon.buildUpdates exDupRows).1 (Recon.basePath ++ "X") =
       some (Recon.normalize { exRowFull with Status := some "Canceled" })) := by
  constructor
  · intro rows
    refine ⟨by simpa using buildAux_count rows [] 0,
      buildAux_keys_nodup rows [] 0 (by simp), ?_⟩
    intro c
    have hpred : ∀ r ∈ rows,
        (Recon.truthy r.Code && (Recon.rowPath r == Recon.basePath ++ c)) =
        (Recon.truthy r.Code && (r.Code.getD "" == c)) := by
      intro r _
      have : (Recon.rowPath r == Recon.basePath ++ c) = (r.Code.getD "" == c) := by
        rcases hb : Recon.rowPath r == Recon.basePath ++ c with _ | _ <;>
          rcases hc : r.Code.getD "" == c with _ | _ <;> try rfl
        · exfalso
          rw [beq_iff_eq] at hc
          rw [beq_eq_false_iff_ne] at hb
          exact hb (by rw [Recon.rowPath, hc])
        · exfalso
          rw [beq_iff_eq] at hb
          rw [beq_eq_false_iff_ne] at hc
          exact hc ((string_append_cancel _ _ _).mp (by rw [Recon.rowPath] at hb; exact hb))
      rw [this]
    rw [show lookupA (Recon.buildUpdates rows).1 (Recon.basePath ++ c) =
        (((rows.filter fun r => Recon.truthy r.Code &&
            (Recon.rowPath r == Recon.basePath ++ c)).getLast?).map
          fun r => some (Recon.normalize r)).getD (lookupA [] (Recon.basePath ++ c))
      from lookupA_buildAux rows [] 0 _]
    rw [List.filter_congr hpred]
    rcases hl : (rows.filter fun r => Recon.truthy r.Code && (r.Code.getD "" == c)).getLast?
      with _ | rlast <;> simp [hl, lookupA]
  · refine ⟨by decide, by decide, by decide⟩

set_option maxRecDepth 8000 in
/-- C9 counterexample: the catch block classifies failures by the
substring "index" of the store's message and interpolates the currently
selected `searchField` state, not the failing query's field.  So a
missing-index failure on "Material Number" while the selected field is
"OrderNumber" (reachable: the dropdown changed after submission) surfaces
a message that does not contain "Material Number"; and a non-index store
failure whose message merely mentions "index" surfaces the Missing-Index
text instead of carrying its own underlying message. -/
theorem c9_error_taxonomy_cex :
    (Pager.runFetch dateCode .OrderNumber 1 none
        (some ⟨.MaterialNumber, "M-7"⟩)
        (.error (.missingIndex .MaterialNumber)) =
      .error (Pager.fetchErrorMessage .OrderNumber (.missingIndex .MaterialNumber)) ∧
     ¬ Pager.containsSub "Material Number"
        (Pager.fetchErrorMessage .OrderNumber (.missingIndex .MaterialNumber))) ∧
    (Pager.runFetch dateCode .OrderNumber 1 none none
        (.error (.other "bad index usage")) =
      .error (Pager.fetchErrorMessage .OrderNumber (.other "bad index usage")) ∧
     Pager.fetchErrorMessage .OrderNumber (.other "bad index usage")
       ≠ "bad index usage" ∧
     Pager.containsSub "Missing Index"
        (Pager.fetchErrorMessage .OrderNumber (.other "bad index usage"))) := by
  refine ⟨⟨rfl, by decide⟩, rfl, by decide, by decide⟩

/-- C9 amended: a fetch failure is routed by whether the store's message
contains the substring "index" (which a missing-index condition's message
always does).  When it does, the surfaced error is the distinct Missing
Index message, which names "OrderDate" and the currently selected search
field — the failing field exactly when the selection equals it, as at
search submission — rather than a field taken from the store's error; so
a store failure that merely mentions "index" is routed there too.  Every
other store failure surfaces as a generic retrieval failure carrying the
underlying message when that message is non-empty, and as the fallback
"Unknown error occurred" when it is empty. -/
theorem c9_error_taxonomy : ∀ (time : String → Int) (page : Nat)
    (cursor : Option Pager.Cursor) (sp : Option Pager.SearchParams),
    (∀ sf f : IxField, ∃ m : String,
      Pager.runFetch time sf page cursor sp (.error (.missingIndex f)) = .error m ∧
      Pager.containsSub "Missing Index" m ∧
      Pager.containsSub sf.name m ∧
      Pager.containsSub "OrderDate" m ∧
      (sf = f → Pager.containsSub f.name m)) ∧
    (∀ (sf : IxField) (msg : String),
      ¬ Pager.containsSub "index" msg → msg ≠ "" →
      Pager.runFetch time sf page cursor sp (.error (.other msg)) = .error msg) ∧
    (∀ sf : IxField,
      Pager.runFetch time sf page cursor sp (.error (.other "")) =
        .error "Unknown error occurred") ∧
    (∀ (sf : IxField) (msg : String),
      Pager.containsSub "index" msg → msg ≠ "" →
      ∃ m : String,
        Pager.runFetch time sf page cursor sp (.error (.other msg)) = .error m ∧
        Pager.containsSub "Missing Index" m) := by
  intro time page cursor sp
  refine ⟨?_, ?_, ?_, ?_⟩
  · intro sf f
    refine ⟨Pager.fetchErrorMessage sf (.missingIndex f), rfl, ?_, ?_, ?_, ?_⟩
    · cases sf <;> cases f <;> decide
    · cases sf <;> cases f <;> decide
    · cases sf <;> cases f <;> decide
    · intro h
      cases h
      cases sf <;> decide
  · intro sf msg hnoidx hne
    have hcond : ¬ ((Pager.StoreErr.other msg).message ≠ "" ∧
        Pager.containsSub "index" (Pager.StoreErr.other msg).message) := by
      intro hc
      exact hnoidx hc.2
    show Except.error (Pager.fetchErrorMessage sf (.other msg)) = Except.error msg
    unfold Pager.fetchErrorMessage
    rw [if_neg hcond, if_neg (by exact hne)]
    rfl
  · intro sf
    rfl
  · intro sf msg hidx hne
    refine ⟨Pager.fetchErrorMessage sf (.other msg), rfl, ?_⟩
    have hcond : (Pager.StoreErr.other msg).message ≠ "" ∧
        Pager.containsSub "index" (Pager.StoreErr.other msg).message := ⟨hne, hidx⟩
    unfold Pager.fetchErrorMessage
    rw [if_pos hcond]
    cases sf <;> decide

/-- C9 witness: with the selected field still equal to the failing field
"Material Number" (as at search submission), the missing-index message
contains the literal field name; a generic failure surfaces its own
message; an empty-message failure surfaces the fallback; a failure whose
message mentions "index" is routed to the Missing Index text. -/
theorem c9_error_taxonomy_witness :
    (∃ m : String,
      Pager.runFetch dateCode .MaterialNumber 1 none
          (some ⟨.MaterialNumber, "M-7"⟩)
          (.error (.missingIndex .MaterialNumber)) = .error m ∧
      Pager.containsSub "Missing Index" m ∧
      Pager.containsSub "Material Number" m) ∧
    Pager.runFetch dateCode .OrderNumber 1 none none
        (.error (.other "connection lost")) = .error "connection lost" ∧
    Pager.runFetch dateCode .OrderNumber 1 none none
        (.error (.other "")) = .error "Unknown error occurred" ∧
    (∃ m : String,
      Pager.runFetch dateCode .OrderNumber 1 none none
          (.error (.other "bad index usage")) = .error m ∧
      Pager.containsSub "Missing Index" m) := by
  refine ⟨?_, ?_, ?_, ?_⟩
  · obtain ⟨m, h1, h2, h3, _, h5⟩ := (c9_error_taxonomy dateCode 1 none
      (some ⟨.MaterialNumber, "M-7"⟩)).1 .MaterialNumber .MaterialNumber
    exact ⟨m, h1, h2, h5 rfl⟩
  · exact (c9_error_taxonomy dateCode 1 none none).2.1 .OrderNumber
      "connection lost" (by decide) (by decide)
  · exact (c9_error_taxonomy dateCode 1 none none).2.2.1 .OrderNumber
  · exact (c9_error_taxonomy dateCode 1 none none).2.2.2 .OrderNumber
      "bad index usage" (by decide) (by decide)
